import Mathlib

/-!
# Verification of PersonalWeb03-Services core logic

A shallow embedding, in Lean 4, of the core logic of the
PersonalWeb03-Services repository (a small personal-automation toolkit),
together with theorems checking its natural-language specification.

The embedding covers:

* `src/utils/guardrail.py` — the time-of-day execution guardrail
  (`TimeGuardrail.parse_time_window`, `check_time_window`, `enforce`);
* `src/main.py` — the CLI orchestration (`main`) and its exit codes;
* `src/utils/config.py` — configuration validation;
* `src/services/left_off/document_parser.py` — date-cutoff document
  extraction (`DocumentParser.extract_last_7_days`);
* `src/services/left_off/summarizer.py` — the JSON post-processing of
  `Summarizer.generate_summary`;
* `src/services/toggl/time_aggregator.py` —
  `TimeAggregator.aggregate_by_project`;
* `docs/requirements/reference-code/onedrive_client.py` —
  `OneDriveClient.get_access_token` and `download_file`.

Python machine-level details are modelled as follows: Python `int` values
are Lean `Int`; Python strings are Lean `String` (both compare
lexicographically by code point); network and filesystem effects are
explicit parameters (outcome values passed in) and explicit results
(traces / written-file descriptions passed out).
-/

namespace PW3

/-! ## Time guardrail (`src/utils/guardrail.py`) -/

/-- Decimal value of a list of digit characters (most significant first). -/
def digitsVal (cs : List Char) : Int :=
  cs.foldl (fun a c => a * 10 + ((c.toNat : Int) - 48)) 0

/-- Strip whitespace from both ends of a character list
(model of Python `str.strip()`). -/
def stripEnds (cs : List Char) : List Char :=
  ((cs.dropWhile Char.isWhitespace).reverse.dropWhile Char.isWhitespace).reverse

/-- Model of Python `int(s)` on a string: optional surrounding whitespace,
optional single leading sign, then a nonempty run of ASCII digits.
(Python's `int` also accepts underscore digit separators and non-ASCII
digits; those exotic inputs are outside this model.) -/
def pyInt (s : String) : Option Int :=
  match stripEnds s.data with
  | [] => none
  | c :: rest =>
    if c = '-' then
      if rest ≠ [] ∧ rest.all Char.isDigit then some (-(digitsVal rest)) else none
    else if c = '+' then
      if rest ≠ [] ∧ rest.all Char.isDigit then some (digitsVal rest) else none
    else
      if (c :: rest).all Char.isDigit then some (digitsVal (c :: rest)) else none

/-- Helper for `pySplitColon`: accumulates the current piece (reversed). -/
def splitColonAux : List Char → List Char → List (List Char)
  | [], cur => [cur.reverse]
  | c :: rest, cur =>
    if c = ':' then cur.reverse :: splitColonAux rest []
    else splitColonAux rest (c :: cur)

/-- Model of Python `s.split(':')` (also the behaviour of Lean's
`String.splitOn ":"`): pieces between colons, in order, empty pieces
included. -/
def pySplitColon (s : String) : List String :=
  (splitColonAux s.data []).map List.asString

/-- `TimeGuardrail.WINDOW_DURATION_MINUTES` (guardrail.py line 17). -/
def WINDOW_DURATION_MINUTES : Int := 10

/-- `TimeGuardrail.parse_time_window` (guardrail.py lines 19–54):
split the string on `':'` into exactly two `int`-parseable parts,
validate `0 ≤ hour ≤ 23` and `0 ≤ minute ≤ 59`, then compute the window
end by adding 10 minutes with minute overflow into the hour and hour
overflow wrapping past midnight.  Any parse or validation failure is the
Python `except` branch returning `None`. -/
def parse_time_window (s : String) : Option (Int × Int × Int × Int) :=
  match (pySplitColon s).map pyInt with
  | [some hour, some minute] =>
    if 0 ≤ hour ∧ hour ≤ 23 ∧ 0 ≤ minute ∧ minute ≤ 59 then
      let em0 := minute + WINDOW_DURATION_MINUTES
      let end_minute := if em0 ≥ 60 then em0 - 60 else em0
      let eh0 := if em0 ≥ 60 then hour + 1 else hour
      let end_hour := if eh0 ≥ 24 then eh0 - 24 else eh0
      some (hour, minute, end_hour, end_minute)
    else none
  | _ => none

/-- `TimeGuardrail.check_time_window` (guardrail.py lines 56–105), with the
current wall-clock time `datetime.now()` passed in explicitly as an hour
and a minute.  Returns `false` when the start string does not parse;
otherwise compares minutes-since-midnight, disjunctively when the window
crosses midnight and conjunctively otherwise. -/
def check_time_window (nowHour nowMinute : Nat) (start_time_str : String) : Bool :=
  match parse_time_window start_time_str with
  | none => false
  | some (start_hour, start_minute, end_hour, end_minute) =>
    let current_total_minutes : Int := (nowHour : Int) * 60 + (nowMinute : Int)
    let start_total_minutes : Int := start_hour * 60 + start_minute
    let end_total_minutes : Int := end_hour * 60 + end_minute
    if end_total_minutes < start_total_minutes then
      decide (current_total_minutes ≥ start_total_minutes) ||
        decide (current_total_minutes ≤ end_total_minutes)
    else
      decide (start_total_minutes ≤ current_total_minutes) &&
        decide (current_total_minutes ≤ end_total_minutes)

/-- `TimeGuardrail.enforce` (guardrail.py lines 107–128): `0` when
bypassed or inside the window, `2` when blocked. -/
def enforce (bypass : Bool) (start_time_str : String) (nowHour nowMinute : Nat) : Nat :=
  if bypass then 0
  else if check_time_window nowHour nowMinute start_time_str then 0
  else 2

/-- The spec's notion of a valid configured start time: the string splits
on `':'` into exactly two integer-parseable parts, with hour in 0–23 and
minute in 0–59.  (Spec §4.1; written from the spec's words, to be compared
with `parse_time_window`.) -/
def isValidStartTime (s : String) : Bool :=
  match (pySplitColon s).map pyInt with
  | [some hour, some minute] =>
    decide (0 ≤ hour ∧ hour ≤ 23 ∧ 0 ≤ minute ∧ minute ≤ 59)
  | _ => false

/-- A successful parse yields in-range start fields, and the parsed end
time is exactly start + 10 minutes taken modulo 24 hours (in
minutes since midnight). -/
theorem parse_time_window_bounds_and_end {s : String} {h m eh em : Int}
    (hp : parse_time_window s = some (h, m, eh, em)) :
    0 ≤ h ∧ h ≤ 23 ∧ 0 ≤ m ∧ m ≤ 59 ∧
      eh * 60 + em = (h * 60 + m + 10) % 1440 := by
  unfold parse_time_window at hp
  split at hp
  · next hour minute heq =>
    simp only [WINDOW_DURATION_MINUTES] at hp
    split at hp
    · next hrange =>
      simp only [Option.some.injEq, Prod.mk.injEq] at hp
      obtain ⟨rfl, rfl, rfl, rfl⟩ := hp
      refine ⟨hrange.1, hrange.2.1, hrange.2.2.1, hrange.2.2.2, ?_⟩
      split <;> split <;> omega
    · exact absurd hp (by simp)
  · exact absurd hp (by simp)

/-- C1: for every valid start time (one that `parse_time_window` accepts)
and every current clock time, the guardrail's window check returns true
iff the current time, in minutes since midnight, lies in the closed
interval from start to start plus 10 minutes taken modulo 24 hours:
conjunctive (`start ≤ now ≤ end`) when the computed end is not before the
start, and disjunctive (`now ≥ start ∨ now ≤ end`) when the end is before
the start (window crosses midnight). -/
theorem check_time_window_iff_interval (s : String) (h m eh em : Int)
    (hp : parse_time_window s = some (h, m, eh, em))
    (nowHour nowMinute : Nat) (hH : nowHour ≤ 23) (hM : nowMinute ≤ 59) :
    check_time_window nowHour nowMinute s = true ↔
      (let start : Int := h * 60 + m
       let wEnd : Int := (start + 10) % 1440
       let now : Int := (nowHour : Int) * 60 + (nowMinute : Int)
       if wEnd < start then now ≥ start ∨ now ≤ wEnd
       else start ≤ now ∧ now ≤ wEnd) := by
  obtain ⟨h0, h1, h2, h3, hend⟩ := parse_time_window_bounds_and_end hp
  simp only [check_time_window, hp]
  rw [show eh * 60 + em = (h * 60 + m + 10) % 1440 from hend]
  by_cases hc : (h * 60 + m + 10) % 1440 < h * 60 + m
  · simp [hc, ge_iff_le]
  · simp [hc]

/-- Witness for C1: start `23:58` (whose window wraps midnight, ending
`00:08`) with current time `23:59` is inside the window, and the interval
restatement agrees. -/
theorem check_time_window_iff_interval_witness :
    check_time_window 23 59 "23:58" = true ↔
      (let start : Int := 23 * 60 + 58
       let wEnd : Int := (start + 10) % 1440
       let now : Int := (23 : Int) * 60 + (59 : Int)
       if wEnd < start then now ≥ start ∨ now ≤ wEnd
       else start ≤ now ∧ now ≤ wEnd) :=
  check_time_window_iff_interval "23:58" 23 58 0 8 (by decide)
    23 59 (by decide) (by decide)

/-- C5: a start-time string rejected by the spec's validity predicate
(wrong shape, non-numeric parts, or out-of-range hour/minute) yields no
parse, makes the window check return false, and makes `enforce` without
bypass return the blocked exit code 2, for every current time. -/
theorem invalid_start_time_denies (s : String)
    (hs : isValidStartTime s = false) (nowHour nowMinute : Nat) :
    parse_time_window s = none ∧
      check_time_window nowHour nowMinute s = false ∧
      enforce false s nowHour nowMinute = 2 := by
  have hnone : parse_time_window s = none := by
    unfold isValidStartTime at hs
    unfold parse_time_window
    split
    · next hour minute heq =>
      rw [heq] at hs
      simp only [decide_eq_false_iff_not] at hs
      simp [hs]
    · rfl
  refine ⟨hnone, ?_, ?_⟩
  · simp [check_time_window, hnone]
  · simp [enforce, check_time_window, hnone]

/-- Witness for C5: the out-of-range start time `"25:00"` is rejected and
blocks execution (exit code 2) at the sample current time 12:30. -/
theorem invalid_start_time_denies_witness :
    parse_time_window "25:00" = none ∧
      check_time_window 12 30 "25:00" = false ∧
      enforce false "25:00" 12 30 = 2 :=
  invalid_start_time_denies "25:00" (by decide) 12 30

/-! ## CLI orchestration (`src/main.py`) -/

/-- The exit code a service function returns: `0` on success, `1` on any
failure (`run_left_off_service` / `run_toggl_service`, main.py lines
37–218; both functions only ever return 0 or 1). -/
def serviceCode (ok : Bool) : Nat := if ok then 0 else 1

/-- `main` (main.py lines 221–275), with the argparse flags, the two
service outcomes, the configured window start and the current clock time
passed in explicitly.  Returns the process exit code paired with whether
`TimeGuardrail.enforce` was invoked.  `--run-left-off` and `--run-toggl`
exit before the guardrail is reached; the no-flag path calls
`TimeGuardrail.enforce` (even when `--run-anyway` is set, in which case
`enforce` bypasses the check), then runs LEFT-OFF and, only if it
succeeded, Toggl. -/
def mainRun (runLeftOff runToggl runAnyway : Bool) (leftOffOk togglOk : Bool)
    (startStr : String) (nowHour nowMinute : Nat) : Nat × Bool :=
  if runLeftOff then (serviceCode leftOffOk, false)
  else if runToggl then (serviceCode togglOk, false)
  else
    let g := enforce runAnyway startStr nowHour nowMinute
    if g ≠ 0 then (g, true)
    else if serviceCode leftOffOk ≠ 0 then (serviceCode leftOffOk, true)
    else (serviceCode togglOk, true)

/-- C6: with the bypass flag set, `enforce` returns 0 unconditionally,
whatever the current time and the configured start time; and the process
exit code is 0 exactly on success of the selected pipeline(s), 1 exactly
on a pipeline failure, and 2 exactly when the run is blocked by the time
window (which can only happen on the no-flag run-both path without
bypass). -/
theorem enforce_bypass_and_exit_codes (runLeftOff runToggl runAnyway : Bool)
    (leftOffOk togglOk : Bool) (startStr : String) (nowHour nowMinute : Nat) :
    enforce true startStr nowHour nowMinute = 0 ∧
      (let code := (mainRun runLeftOff runToggl runAnyway leftOffOk togglOk
        startStr nowHour nowMinute).1
       let blocked := runLeftOff = false ∧ runToggl = false ∧ runAnyway = false ∧
         check_time_window nowHour nowMinute startStr = false
       let success := if runLeftOff then leftOffOk = true
         else if runToggl then togglOk = true
         else leftOffOk = true ∧ togglOk = true
       (code = 2 ↔ blocked) ∧
         (code = 0 ↔ ¬blocked ∧ success) ∧
         (code = 1 ↔ ¬blocked ∧ ¬success)) := by
  refine ⟨rfl, ?_, ?_, ?_⟩ <;>
    cases runLeftOff <;> cases runToggl <;> cases runAnyway <;>
      cases leftOffOk <;> cases togglOk <;>
      simp [mainRun, enforce, serviceCode] <;>
      cases hcw : check_time_window nowHour nowMinute startStr <;> simp [hcw]

/-- C10: when a single-service flag (`--run-left-off` or `--run-toggl`) is
set, the time guardrail is never consulted and the selected service's
exit code is returned whatever the current time, the configured window
and the `--run-anyway` flag; the guardrail is consulted exactly on the
no-flag run-both path. -/
theorem single_service_skips_guardrail (runLeftOff runToggl runAnyway : Bool)
    (leftOffOk togglOk : Bool) (startStr : String) (nowHour nowMinute : Nat) :
    (runLeftOff = true ∨ runToggl = true →
      (mainRun runLeftOff runToggl runAnyway leftOffOk togglOk
          startStr nowHour nowMinute).2 = false ∧
        (mainRun runLeftOff runToggl runAnyway leftOffOk togglOk
            startStr nowHour nowMinute).1 =
          (if runLeftOff then serviceCode leftOffOk else serviceCode togglOk)) ∧
      (runLeftOff = false ∧ runToggl = false →
        (mainRun runLeftOff runToggl runAnyway leftOffOk togglOk
            startStr nowHour nowMinute).2 = true) := by
  constructor
  · rintro (rfl | hT)
    · simp [mainRun]
    · cases runLeftOff <;> simp [mainRun, hT]
  · rintro ⟨rfl, rfl⟩
    simp only [mainRun, Bool.false_eq_true, if_false]
    split <;> (try rfl) <;> split <;> rfl

/-- Witness for C10: with `--run-toggl` set (and `--run-anyway` unset, at
a time far outside the default window), the guardrail is not consulted
and the Toggl service's failure code 1 is returned. -/
theorem single_service_skips_guardrail_witness :
    (mainRun false true false true false "23:00" 12 0).2 = false ∧
      (mainRun false true false true false "23:00" 12 0).1 =
        (if false then serviceCode true else serviceCode false) :=
  (single_service_skips_guardrail false true false true false "23:00" 12 0).1
    (Or.inr rfl)

/-! ## Document extraction (`src/services/left_off/document_parser.py`) -/

/-- One paragraph of the loaded docx document: its text and the name of
its style (`paragraph.text`, `paragraph.style.name`). -/
structure Paragraph where
  text : String
  style : String
deriving DecidableEq

/-- Lexicographic `≤` on character lists by code point — the comparison
Python performs on `str` values (and Lean's `String` order). -/
def lexLe : List Char → List Char → Bool
  | [], _ => true
  | _ :: _, [] => false
  | a :: as, b :: bs =>
    if a < b then true else if b < a then false else lexLe as bs

/-- Python `a <= b` on strings: code-point lexicographic comparison. -/
def pyStrLe (a b : String) : Bool := lexLe a.data b.data

/-- The regex `^\d{8}$` of document_parser.py line 67: exactly eight
ASCII digits. -/
def isDate8 (s : String) : Bool :=
  s.data.length == 8 && s.data.all Char.isDigit

/-- The cutoff test of document_parser.py lines 71–79: a `Heading 1`
paragraph whose stripped text matches `^\d{8}$` and is lexicographically
`≤` the cutoff date string. -/
def isCutoffHeading (cutoff_date_str : String) (p : Paragraph) : Bool :=
  p.style == "Heading 1" &&
    (let text := (stripEnds p.text.data).asString
     isDate8 text && pyStrLe text cutoff_date_str)

/-- The `for … enumerate … break` scan of document_parser.py lines 69–82:
index of the first paragraph satisfying the cutoff test, if any. -/
def findCutoffIndex (cutoff_date_str : String) : List Paragraph → Option Nat
  | [] => none
  | p :: rest =>
    if isCutoffHeading cutoff_date_str p then some 0
    else (findCutoffIndex cutoff_date_str rest).map (· + 1)

/-- The markdown rendering of document_parser.py lines 96–104. -/
def renderLine (p : Paragraph) : String :=
  if p.style == "Heading 1" then "# " ++ p.text
  else if p.style == "Heading 2" then "## " ++ p.text
  else if p.style == "Heading 3" then "### " ++ p.text
  else p.text

/-- `DocumentParser.extract_last_7_days` (document_parser.py lines
43–117): the written markdown content, as a function of the document's
paragraphs and of the cutoff date string.  The cutoff date string is
computed by the caller as `(datetime.now() - timedelta(days=8))`
formatted `%Y%m%d` (lines 61–62); it is passed in here as a parameter.
When no paragraph qualifies, `cutoff_index` is the paragraph count, so
the whole document is rendered. -/
def extract_last_7_days (cutoff_date_str : String) (paragraphs : List Paragraph) : String :=
  let cutoff_index :=
    match findCutoffIndex cutoff_date_str paragraphs with
    | some i => i
    | none => paragraphs.length
  String.intercalate "\n" ((paragraphs.take cutoff_index).map renderLine)

/-- `findCutoffIndex` finds the first qualifying paragraph: if paragraph
`i` qualifies and no earlier one does, the result is `some i`. -/
theorem findCutoffIndex_first (cutoff : String) :
    ∀ (l : List Paragraph) (i : Nat) (hi : i < l.length),
      isCutoffHeading cutoff (l.get ⟨i, hi⟩) = true →
      (∀ j (hj : j < i), isCutoffHeading cutoff (l.get ⟨j, hj.trans hi⟩) = false) →
      findCutoffIndex cutoff l = some i := by
  intro l
  induction l with
  | nil => intro i hi; simp at hi
  | cons p rest ih =>
    intro i hi hP hfirst
    cases i with
    | zero =>
      simp only [List.get] at hP
      simp [findCutoffIndex, hP]
    | succ i' =>
      have hp0 : isCutoffHeading cutoff p = false := by
        have := hfirst 0 (Nat.succ_pos i')
        simpa using this
      have hi' : i' < rest.length := Nat.lt_of_succ_lt_succ hi
      have hrest : findCutoffIndex cutoff rest = some i' := by
        refine ih i' hi' ?_ ?_
        · simpa using hP
        · intro j hj
          have := hfirst (j + 1) (Nat.succ_lt_succ hj)
          simpa using this
      simp [findCutoffIndex, hp0, hrest]

/-- `findCutoffIndex` returns `none` when no paragraph qualifies. -/
theorem findCutoffIndex_none (cutoff : String) :
    ∀ (l : List Paragraph),
      (∀ i (hi : i < l.length), isCutoffHeading cutoff (l.get ⟨i, hi⟩) = false) →
      findCutoffIndex cutoff l = none := by
  intro l
  induction l with
  | nil => intro _; rfl
  | cons p rest ih =>
    intro hnone
    have hp0 : isCutoffHeading cutoff p = false := by
      have := hnone 0 (Nat.succ_pos rest.length)
      simpa using this
    have hrest : findCutoffIndex cutoff rest = none := by
      refine ih ?_
      intro i hi
      have := hnone (i + 1) (Nat.succ_lt_succ hi)
      simpa using this
    simp [findCutoffIndex, hp0, hrest]

/-- C2: for every document and cutoff date string, if paragraph `i` is the
first `Heading 1` whose stripped text matches exactly 8 digits and is
lexicographically `≤` the cutoff string, then exactly the paragraphs
strictly before `i` are rendered into the output and everything from `i`
onward is discarded; and if no paragraph qualifies, the whole document is
rendered. -/
theorem extract_last_7_days_cutoff (cutoff : String) (paragraphs : List Paragraph) :
    (∀ i (hi : i < paragraphs.length),
      isCutoffHeading cutoff (paragraphs.get ⟨i, hi⟩) = true →
      (∀ j (hj : j < i), isCutoffHeading cutoff (paragraphs.get ⟨j, hj.trans hi⟩) = false) →
      extract_last_7_days cutoff paragraphs =
        String.intercalate "\n" ((paragraphs.take i).map renderLine)) ∧
    ((∀ i (hi : i < paragraphs.length),
        isCutoffHeading cutoff (paragraphs.get ⟨i, hi⟩) = false) →
      extract_last_7_days cutoff paragraphs =
        String.intercalate "\n" (paragraphs.map renderLine)) := by
  constructor
  · intro i hi hP hfirst
    have hidx := findCutoffIndex_first cutoff paragraphs i hi hP hfirst
    simp [extract_last_7_days, hidx]
  · intro hnone
    have hidx := findCutoffIndex_none cutoff paragraphs hnone
    simp [extract_last_7_days, hidx]

/-- The spec's fixture document: top-level dated headings `20240120` and
`20240110` with body text under each. -/
def demoDoc : List Paragraph :=
  [⟨"20240120", "Heading 1"⟩, ⟨"worked on site", "Normal"⟩,
   ⟨"20240110", "Heading 1"⟩, ⟨"older entry", "Normal"⟩]

/-- Witness for C2: with cutoff string `20240112`, the first qualifying
heading of `demoDoc` is `20240110` (index 2, since `20240120` is newer
than the cutoff), so exactly the two paragraphs before it are rendered. -/
theorem extract_last_7_days_cutoff_witness :
    extract_last_7_days "20240112" demoDoc =
      String.intercalate "\n" ((demoDoc.take 2).map renderLine) :=
  (extract_last_7_days_cutoff "20240112" demoDoc).1 2 (by decide)
    (by decide) (by decide)

/-! ## Toggl time aggregation (`src/services/toggl/time_aggregator.py`) -/

/-- One Toggl time entry, as consumed by the aggregator:
`entry.get('project_id')` (absent/null modelled as `none`) and
`entry.get('duration', 0)` in seconds (negative means currently
running). -/
structure TEntry where
  project_id : Option Int
  duration : Int
deriving DecidableEq

/-- One Toggl project: its id and name. -/
structure TProject where
  id : Int
  name : String
deriving DecidableEq

/-- One aggregation result dict (`project_name`, `hours_worked`). -/
structure Aggregate where
  project_name : String
  hours_worked : ℚ
deriving DecidableEq

/-- Round a rational to the nearest integer, ties to even — the rounding
mode of Python's built-in `round`.  (The program computes on binary
floats; their representation error is not modelled, the arithmetic is
taken exact.) -/
def roundHalfEven (q : ℚ) : Int :=
  let f := ⌊q⌋
  let r := q - f
  if r < 1/2 then f
  else if 1/2 < r then f + 1
  else if f % 2 = 0 then f else f + 1

/-- Python `round(q, 2)`: round to two decimal places, ties to even. -/
def pyRound2 (q : ℚ) : ℚ := (roundHalfEven (q * 100) : ℚ) / 100

/-- The `project_map` lookup of time_aggregator.py lines 27–28 and 44:
a dict from id to name built from `projects` (later duplicates
overwrite, hence the reversed search), the null id mapped to
`'No Project'`, and `dict.get`'s default `f'Unknown Project ({id})'`. -/
def project_map_get (projects : List TProject) (pid : Option Int) : String :=
  match pid with
  | none => "No Project"
  | some i =>
    match projects.reverse.find? (fun p => p.id == i) with
    | some p => p.name
    | none => "Unknown Project (" ++ toString i ++ ")"

/-- Add `d` to the total recorded for key `k` in an association list,
appending a new `(k, d)` pair at the end when `k` is absent — the
`defaultdict(int)` update `project_durations[project_id] += duration`
together with dict insertion order. -/
def bump : List (Option Int × Int) → Option Int → Int → List (Option Int × Int)
  | [], k, d => [(k, d)]
  | (k', v) :: rest, k, d =>
    if k' = k then (k', v + d) :: rest else (k', v) :: bump rest k d

/-- The accumulation loop of time_aggregator.py lines 31–39: durations
summed by project id, only entries with `duration > 0` counted, keys in
first-encounter order. -/
def accumulate (time_entries : List TEntry) : List (Option Int × Int) :=
  time_entries.foldl
    (fun acc e => if 0 < e.duration then bump acc e.project_id e.duration else acc) []

/-- The `results` list of time_aggregator.py lines 42–50, before
sorting: one dict per accumulated key, with the project name looked up
and `hours_worked = round(total_seconds / 3600, 2)`. -/
def preResults (time_entries : List TEntry) (projects : List TProject) : List Aggregate :=
  (accumulate time_entries).map fun kv =>
    ⟨project_map_get projects kv.1, pyRound2 ((kv.2 : ℚ) / 3600)⟩

/-- The sort relation of `results.sort(key=lambda x: x['hours_worked'],
reverse=True)`: `a` may precede `b` iff `b`'s hours do not exceed
`a`'s. -/
def hoursGE (a b : Aggregate) : Prop := b.hours_worked ≤ a.hours_worked

instance : DecidableRel hoursGE := fun a b =>
  inferInstanceAs (Decidable (b.hours_worked ≤ a.hours_worked))

instance : IsTotal Aggregate hoursGE :=
  ⟨fun a b => le_total b.hours_worked a.hours_worked⟩

instance : IsTrans Aggregate hoursGE :=
  ⟨fun _ _ _ h1 h2 => le_trans h2 h1⟩

/-- `TimeAggregator.aggregate_by_project` (time_aggregator.py lines
12–56).  Python's `list.sort` is a stable sort and `reverse=True` keeps
equal elements in their original order, so the sorting step is modelled
by the stable `List.insertionSort` under `hoursGE` (a stable sort's
output is uniquely determined by the comparison and the input order). -/
def aggregate_by_project (time_entries : List TEntry) (projects : List TProject) :
    List Aggregate :=
  List.insertionSort hoursGE (preResults time_entries projects)

/-- The entries counted by the spec: those with `duration > 0`. -/
def posEntries (time_entries : List TEntry) : List TEntry :=
  time_entries.filter fun e => decide (0 < e.duration)

/-- Project ids of the counted entries, in document order. -/
def posPids (time_entries : List TEntry) : List (Option Int) :=
  (posEntries time_entries).map (·.project_id)

/-- Distinct elements of a list, keeping first occurrences in encounter
order. -/
def dedupFirst (l : List (Option Int)) : List (Option Int) :=
  l.foldl (fun acc k => if k ∈ acc then acc else acc ++ [k]) []

/-- The spec's per-key total: the sum of the durations of the counted
entries carrying key `k`. -/
def specTotal (time_entries : List TEntry) (k : Option Int) : Int :=
  (((posEntries time_entries).filter fun e => decide (e.project_id = k)).map
    (fun e => e.duration)).sum

theorem mem_dedupFoldl (l : List (Option Int)) :
    ∀ (acc : List (Option Int)) (x : Option Int),
      x ∈ l.foldl (fun acc k => if k ∈ acc then acc else acc ++ [k]) acc ↔
        x ∈ acc ∨ x ∈ l := by
  induction l with
  | nil => intro acc x; simp
  | cons a l ih =>
    intro acc x
    simp only [List.foldl_cons]
    by_cases ha : a ∈ acc
    · rw [if_pos ha, ih]
      constructor
      · rintro (hx | hx)
        · exact Or.inl hx
        · exact Or.inr (List.mem_cons_of_mem a hx)
      · rintro (hx | hx)
        · exact Or.inl hx
        · rcases List.mem_cons.mp hx with rfl | hx
          · exact Or.inl ha
          · exact Or.inr hx
    · rw [if_neg ha, ih]
      simp only [List.mem_append, List.mem_singleton, List.mem_cons]
      tauto

theorem nodup_dedupFoldl (l : List (Option Int)) :
    ∀ (acc : List (Option Int)), acc.Nodup →
      (l.foldl (fun acc k => if k ∈ acc then acc else acc ++ [k]) acc).Nodup := by
  induction l with
  | nil => intro acc h; simpa using h
  | cons a l ih =>
    intro acc hacc
    simp only [List.foldl_cons]
    by_cases ha : a ∈ acc
    · rw [if_pos ha]; exact ih acc hacc
    · rw [if_neg ha]
      refine ih _ ?_
      simp [List.nodup_append, hacc, ha]

theorem mem_dedupFirst {l : List (Option Int)} {x : Option Int} :
    x ∈ dedupFirst l ↔ x ∈ l := by
  unfold dedupFirst
  rw [mem_dedupFoldl]
  simp

theorem nodup_dedupFirst (l : List (Option Int)) : (dedupFirst l).Nodup :=
  nodup_dedupFoldl l [] List.nodup_nil

theorem dedupFirst_append_singleton (l : List (Option Int)) (k : Option Int) :
    dedupFirst (l ++ [k]) =
      if k ∈ l then dedupFirst l else dedupFirst l ++ [k] := by
  have h : dedupFirst (l ++ [k]) =
      if k ∈ dedupFirst l then dedupFirst l else dedupFirst l ++ [k] := by
    unfold dedupFirst
    rw [List.foldl_append]
    simp only [List.foldl_cons, List.foldl_nil]
  rw [h]
  by_cases hk : k ∈ l
  · rw [if_pos (mem_dedupFirst.mpr hk), if_pos hk]
  · rw [if_neg (fun hh => hk (mem_dedupFirst.mp hh)), if_neg hk]

theorem posEntries_append_singleton (l : List TEntry) (e : TEntry) :
    posEntries (l ++ [e]) =
      posEntries l ++ (if 0 < e.duration then [e] else []) := by
  simp only [posEntries, List.filter_append]
  congr 1
  by_cases he : 0 < e.duration <;> simp [he]

theorem posPids_append_singleton (l : List TEntry) (e : TEntry) :
    posPids (l ++ [e]) =
      posPids l ++ (if 0 < e.duration then [e.project_id] else []) := by
  simp only [posPids, posEntries_append_singleton, List.map_append]
  by_cases he : 0 < e.duration <;> simp [he]

theorem specTotal_append_singleton (l : List TEntry) (e : TEntry) (k : Option Int) :
    specTotal (l ++ [e]) k =
      specTotal l k +
        (if 0 < e.duration ∧ e.project_id = k then e.duration else 0) := by
  simp only [specTotal, posEntries_append_singleton, List.filter_append,
    List.map_append, List.sum_append]
  congr 1
  by_cases he : 0 < e.duration
  · by_cases hk : e.project_id = k <;> simp [he, hk]
  · simp [he]

theorem specTotal_of_not_mem_posPids {l : List TEntry} {k : Option Int}
    (hk : k ∉ posPids l) : specTotal l k = 0 := by
  have : (posEntries l).filter (fun e => decide (e.project_id = k)) = [] := by
    rw [List.filter_eq_nil]
    intro e he
    simp only [decide_eq_true_eq]
    intro hek
    exact hk (by simp [posPids, List.mem_map]; exact ⟨e, he, hek⟩)
  simp [specTotal, this]

theorem bump_map_mem (t : Option Int → Int) (k : Option Int) (d : Int) :
    ∀ (K : List (Option Int)), K.Nodup → k ∈ K →
      bump (K.map fun x => (x, t x)) k d =
        K.map fun x => (x, t x + if x = k then d else 0) := by
  intro K
  induction K with
  | nil => intro _ h; simp at h
  | cons a K ih =>
    intro hnd hk
    simp only [List.map_cons, bump]
    by_cases hak : a = k
    · subst hak
      rw [if_pos rfl]
      have ha : a ∉ K := (List.nodup_cons.mp hnd).1
      simp only [if_pos rfl]
      congr 1
      refine (List.map_congr_left ?_).symm
      intro x hx
      have hxa : x ≠ a := fun h => ha (h ▸ hx)
      simp [hxa]
    · rw [if_neg hak]
      have hk' : k ∈ K := by
        rcases List.mem_cons.mp hk with h | h
        · exact absurd h.symm hak
        · exact h
      rw [ih (List.nodup_cons.mp hnd).2 hk']
      simp [hak]

theorem bump_map_not_mem (t : Option Int → Int) (k : Option Int) (d : Int) :
    ∀ (K : List (Option Int)), k ∉ K →
      bump (K.map fun x => (x, t x)) k d =
        (K.map fun x => (x, t x)) ++ [(k, d)] := by
  intro K
  induction K with
  | nil => intro _; rfl
  | cons a K ih =>
    intro hk
    have hak : a ≠ k := fun h => hk (h ▸ List.mem_cons_self a K)
    have hk' : k ∉ K := fun h => hk (List.mem_cons_of_mem a h)
    simp only [List.map_cons, bump, if_neg hak]
    rw [ih hk']
    simp

theorem accumulate_append_singleton (l : List TEntry) (e : TEntry) :
    accumulate (l ++ [e]) =
      if 0 < e.duration then bump (accumulate l) e.project_id e.duration
      else accumulate l := by
  simp [accumulate, List.foldl_append]

/-- The accumulated association list is exactly: the distinct positive
keys in first-encounter order, each paired with the spec's per-key
total. -/
theorem accumulate_eq_spec (time_entries : List TEntry) :
    accumulate time_entries =
      (dedupFirst (posPids time_entries)).map
        (fun k => (k, specTotal time_entries k)) := by
  induction time_entries using List.reverseRecOn with
  | nil => rfl
  | append_singleton l e ih =>
    rw [accumulate_append_singleton, posPids_append_singleton]
    by_cases he : 0 < e.duration
    · rw [if_pos he, if_pos he, ih, dedupFirst_append_singleton]
      by_cases hmem : e.project_id ∈ posPids l
      · rw [if_pos hmem]
        have hmemd : e.project_id ∈ dedupFirst (posPids l) := mem_dedupFirst.mpr hmem
        rw [bump_map_mem _ _ _ _ (nodup_dedupFirst _) hmemd]
        refine List.map_congr_left ?_
        intro k hk
        rw [specTotal_append_singleton]
        by_cases hkk : k = e.project_id
        · simp [hkk, he]
        · have : ¬(0 < e.duration ∧ e.project_id = k) := fun h => hkk (h.2.symm)
          simp [hkk, this]
      · rw [if_neg hmem]
        have hmemd : e.project_id ∉ dedupFirst (posPids l) :=
          fun h => hmem (mem_dedupFirst.mp h)
        rw [bump_map_not_mem _ _ _ _ hmemd, List.map_append]
        congr 1
        · refine List.map_congr_left ?_
          intro k hk
          rw [specTotal_append_singleton]
          have hkk : ¬(0 < e.duration ∧ e.project_id = k) := by
            rintro ⟨-, rfl⟩
            exact hmem (mem_dedupFirst.mp hk)
          simp [hkk]
        · simp only [List.map_cons, List.map_nil]
          rw [specTotal_append_singleton,
            specTotal_of_not_mem_posPids hmem]
          simp [he]
    · rw [if_neg he, if_neg he, List.append_nil, ih]
      refine List.map_congr_left ?_
      intro k hk
      rw [specTotal_append_singleton]
      have : ¬(0 < e.duration ∧ e.project_id = k) := fun h => he h.1
      simp [this]

/-- The spec's aggregation example input: four entries, one with the
negative running sentinel. -/
def exEntries : List TEntry :=
  [⟨some 1, 3600⟩, ⟨some 1, 1800⟩, ⟨none, -5⟩, ⟨some 2, 7200⟩]

/-- The spec's aggregation example projects. -/
def exProjects : List TProject := [⟨1, "A"⟩, ⟨2, "B"⟩]

/-- A tie input: two projects with one hour each, to exercise the
stable-tie clause. -/
def tieEntries : List TEntry := [⟨some 1, 3600⟩, ⟨some 2, 3600⟩]

theorem preResults_exEntries :
    preResults exEntries exProjects = [⟨"A", 3/2⟩, ⟨"B", 2⟩] := by
  have hacc : accumulate exEntries = [(some 1, 5400), (some 2, 7200)] := rfl
  have h1 : pyRound2 ((5400 : ℚ) / 3600) = 3/2 := by
    norm_num [pyRound2, roundHalfEven]
  have h2 : pyRound2 ((7200 : ℚ) / 3600) = 2 := by
    norm_num [pyRound2, roundHalfEven]
  simp only [preResults, hacc, List.map_cons, List.map_nil]
  rw [show ((5400 : Int) : ℚ) = (5400 : ℚ) by norm_num,
    show ((7200 : Int) : ℚ) = (7200 : ℚ) by norm_num, h1, h2]
  rfl

theorem preResults_tieEntries :
    preResults tieEntries exProjects = [⟨"A", 1⟩, ⟨"B", 1⟩] := by
  have hacc : accumulate tieEntries = [(some 1, 3600), (some 2, 3600)] := rfl
  have h1 : pyRound2 ((3600 : ℚ) / 3600) = 1 := by
    norm_num [pyRound2, roundHalfEven]
  simp only [preResults, hacc, List.map_cons, List.map_nil]
  rw [show ((3600 : Int) : ℚ) = (3600 : ℚ) by norm_num, h1]
  rfl

/-- C3: for every list of time entries and every list of projects,
`aggregate_by_project` (i) emits, before sorting, exactly one result per
distinct positive-duration project key in first-encounter order, keyed
with null mapped to `No Project`, whose hours are
`round(total_seconds/3600, 2)` where the total sums only the durations
strictly greater than 0; (ii) returns a permutation of those results,
(iii) sorted descending by `hours_worked`, (iv) with ties keeping
encounter order (stable sort); and (v) on the spec's example input
yields `[{"B", 2.0}, {"A", 1.5}]`. -/
theorem aggregate_by_project_spec (time_entries : List TEntry) (projects : List TProject) :
    preResults time_entries projects =
      (dedupFirst (posPids time_entries)).map
        (fun k => ⟨project_map_get projects k,
          pyRound2 ((specTotal time_entries k : ℚ) / 3600)⟩) ∧
    (dedupFirst (posPids time_entries)).Nodup ∧
    List.Perm (aggregate_by_project time_entries projects) (preResults time_entries projects) ∧
    (aggregate_by_project time_entries projects).Sorted hoursGE ∧
    (∀ a b : Aggregate, List.Sublist [a, b] (preResults time_entries projects) →
      a.hours_worked = b.hours_worked →
      List.Sublist [a, b] (aggregate_by_project time_entries projects)) ∧
    aggregate_by_project exEntries exProjects = [⟨"B", 2⟩, ⟨"A", 3/2⟩] := by
  refine ⟨?_, nodup_dedupFirst _, List.perm_insertionSort hoursGE _,
    List.sorted_insertionSort hoursGE _, ?_, ?_⟩
  · rw [preResults, accumulate_eq_spec, List.map_map]
    rfl
  · intro a b hsub heq
    exact List.pair_sublist_insertionSort
      (show hoursGE a b from le_of_eq heq.symm) hsub
  · rw [aggregate_by_project, preResults_exEntries]
    show List.orderedInsert hoursGE ⟨"A", 3/2⟩
      (List.orderedInsert hoursGE ⟨"B", 2⟩ []) = _
    simp only [List.orderedInsert]
    rw [if_neg]
    show ¬hoursGE ⟨"A", 3/2⟩ ⟨"B", 2⟩
    simp only [hoursGE]
    norm_num

/-- Witness for C3's tie clause: with two projects at exactly one hour
each, the pair keeps its encounter order in the sorted output. -/
theorem aggregate_by_project_spec_witness :
    List.Sublist [(⟨"A", 1⟩ : Aggregate), ⟨"B", 1⟩]
      (aggregate_by_project tieEntries exProjects) :=
  (aggregate_by_project_spec tieEntries exProjects).2.2.2.2.1 ⟨"A", 1⟩ ⟨"B", 1⟩
    (by rw [preResults_tieEntries]) rfl

/-! ## OneDrive client (`docs/requirements/reference-code/onedrive_client.py`) -/

/-- The `OneDriveClient` instance state: constructor arguments plus the
mutable `access_token` attribute (initially `None`). -/
structure ODState where
  application_id : String
  client_secret : String
  refresh_token : String
  access_token : Option String
deriving DecidableEq

/-- The relevant fields of the MSAL `acquire_token_by_refresh_token`
result dict: the optional `access_token` and `refresh_token` entries. -/
structure TokenReply where
  access_token : Option String
  refresh_token : Option String
deriving DecidableEq

/-- Outcome of the token call: a raised exception, or a result dict. -/
inductive AuthOutcome where
  | exn
  | reply (r : TokenReply)
deriving DecidableEq

/-- `OneDriveClient.get_access_token` (onedrive_client.py lines 35–78):
on a reply containing an access token the rotated refresh token (if any)
is only written to the log (lines 60–62), `self.access_token` is set and
the access token is returned; every other outcome returns `None` with
the state unchanged. -/
def get_access_token (st : ODState) (out : AuthOutcome) : ODState × Option String :=
  match out with
  | .exn => (st, none)
  | .reply r =>
    match r.access_token with
    | some a => ({ st with access_token := some a }, some a)
    | none => (st, none)

/-- The spec's surfacing requirement (§4.2, written from the spec's
words): whenever the provider's reply carries an access token together
with a refresh value different from the stored one, the caller of
`get_access_token` can recover that rotated value from the call's result
— either as the returned value or in the returned client state. -/
def rotatedRefreshSurfaced (st : ODState) (r : TokenReply) : Prop :=
  ∀ newRefresh, r.access_token.isSome → r.refresh_token = some newRefresh →
    newRefresh ≠ st.refresh_token →
    ((get_access_token st (.reply r)).2 = some newRefresh ∨
      (get_access_token st (.reply r)).1.refresh_token = newRefresh)

/-- C4 (refuted — the code only logs the rotated refresh value): with
stored refresh value `R1` and a reply carrying access token `A` and new
refresh value `R2`, `get_access_token` returns only the access token and
leaves the stored refresh value at `R1`; `R2` is not surfaced to the
caller. -/
theorem rotated_refresh_not_surfaced :
    get_access_token ⟨"app", "secret", "R1", none⟩
        (.reply ⟨some "A", some "R2"⟩) =
      (⟨"app", "secret", "R1", some "A"⟩, some "A") ∧
    ¬rotatedRefreshSurfaced ⟨"app", "secret", "R1", none⟩ ⟨some "A", some "R2"⟩ := by
  refine ⟨rfl, ?_⟩
  intro hsurf
  rcases hsurf "R2" rfl rfl (by decide) with h | h
  · exact absurd h (by decide)
  · exact absurd h (by decide)

/-- Outcome of the HTTP download request: a raised transport exception,
or a response with its status code and body. -/
inductive HttpOutcome where
  | exn
  | resp (status : Nat) (body : String)
deriving DecidableEq

/-- What `OneDriveClient.download_file` did: its boolean return value,
whether the HTTP GET was issued, the file written to disk (path and
content), and whether the output's parent directories were created
(`os.makedirs(..., exist_ok=True)`). -/
structure DownloadResult where
  success : Bool
  requested : Bool
  written : Option (String × String)
  dirsCreated : Bool
deriving DecidableEq

/-- `OneDriveClient.download_file` (onedrive_client.py lines 80–123):
no access token → immediate `False` with no request; with a token, a
transport exception or a non-200 status → `False` with nothing written;
a 200 response → parent directories created, body written to
`output_path`, `True`. -/
def download_file (st : ODState) (file_id output_path : String)
    (out : HttpOutcome) : DownloadResult :=
  match st.access_token with
  | none => ⟨false, false, none, false⟩
  | some _ =>
    match out with
    | .exn => ⟨false, true, none, false⟩
    | .resp status body =>
      if status = 200 then ⟨true, true, some (output_path, body), true⟩
      else ⟨false, true, none, false⟩

/-- C8: a download with no access token fails immediately without any
HTTP request; with a token, a transport exception or any non-200 status
is a failure with no file written; a 200 response succeeds, writing the
body to the destination with parent directories created. -/
theorem download_file_spec (st : ODState) (file_id output_path : String)
    (out : HttpOutcome) :
    (st.access_token = none →
      download_file st file_id output_path out = ⟨false, false, none, false⟩) ∧
    (∀ t, st.access_token = some t →
      (out = .exn →
        download_file st file_id output_path out = ⟨false, true, none, false⟩) ∧
      (∀ status body, out = .resp status body → status ≠ 200 →
        download_file st file_id output_path out = ⟨false, true, none, false⟩) ∧
      (∀ body, out = .resp 200 body →
        download_file st file_id output_path out =
          ⟨true, true, some (output_path, body), true⟩)) := by
  constructor
  · intro h
    simp [download_file, h]
  · intro t ht
    refine ⟨?_, ?_, ?_⟩
    · rintro rfl
      simp [download_file, ht]
    · rintro status body rfl hs
      simp [download_file, ht, hs]
    · rintro body rfl
      simp [download_file, ht]

/-- Witness for C8: a tokenless client makes no request; a client holding
a token turns a 404 into a failure with nothing written, and a 200 into
a written file. -/
theorem download_file_spec_witness :
    download_file ⟨"app", "secret", "R1", none⟩ "fid" "/tmp/out" (.resp 200 "data") =
      ⟨false, false, none, false⟩ ∧
    download_file ⟨"app", "secret", "R1", some "tok"⟩ "fid" "/tmp/out" (.resp 404 "err") =
      ⟨false, true, none, false⟩ ∧
    download_file ⟨"app", "secret", "R1", some "tok"⟩ "fid" "/tmp/out" (.resp 200 "data") =
      ⟨true, true, some ("/tmp/out", "data"), true⟩ :=
  ⟨(download_file_spec ⟨"app", "secret", "R1", none⟩ "fid" "/tmp/out"
      (.resp 200 "data")).1 rfl,
    ((download_file_spec ⟨"app", "secret", "R1", some "tok"⟩ "fid" "/tmp/out"
      (.resp 404 "err")).2 "tok" rfl).2.1 404 "err" rfl (by decide),
    ((download_file_spec ⟨"app", "secret", "R1", some "tok"⟩ "fid" "/tmp/out"
      (.resp 200 "data")).2 "tok" rfl).2.2 "data" rfl⟩

/-! ## Summarizer (`src/services/left_off/summarizer.py`) -/

/-- A JSON value, as far as the summarizer inspects one. -/
inductive JVal where
  | jstr (s : String)
  | jnum (n : Int)
  | jbool (b : Bool)
  | jnull
deriving DecidableEq

/-- A parsed JSON object: key/value pairs in insertion order (Python
dicts preserve insertion order, and `json.loads` inserts in document
order). -/
abbrev JObj := List (String × JVal)

/-- Python `'datetime_summary' not in result`, negated: key membership
in the dict. -/
def hasKey (k : String) (obj : JObj) : Bool :=
  obj.any (fun kv => kv.1 == k)

/-- `Summarizer.generate_summary` (summarizer.py lines 35–103), with the
file reads and the OpenAI call passed in as outcomes: `activities` and
`template` are the two file contents (`none` = `FileNotFoundError`),
`apiResult` is the transport outcome (`none` = exception) carrying the
JSON parse outcome (`none` = `json.JSONDecodeError`).  On success, a
missing `datetime_summary` key is injected with the current time (dict
assignment on an absent key appends in insertion order, lines 86–87). -/
def generate_summary (now : String) (activities template : Option String)
    (apiResult : Option (Option JObj)) : Option JObj :=
  match activities with
  | none => none
  | some activities_content =>
    match template with
    | none => none
    | some prompt_template =>
      let _prompt :=
        prompt_template.replace "<< last-7-days-activities.md >>" activities_content
      match apiResult with
      | none => none
      | some none => none
      | some (some result) =>
        some (if hasKey "datetime_summary" result then result
          else result ++ [("datetime_summary", .jstr now)])

/-- C9: for every successfully parsed JSON object, if the object lacks
the `datetime_summary` key then `generate_summary` returns the object
with exactly that one field appended (set from the current time) and
every other key/value pair unchanged; if the key is present the object
is returned unchanged. -/
theorem generate_summary_datetime_injection (now : String)
    (activities template : String) (result : JObj) :
    (hasKey "datetime_summary" result = false →
      generate_summary now (some activities) (some template) (some (some result)) =
        some (result ++ [("datetime_summary", .jstr now)])) ∧
    (hasKey "datetime_summary" result = true →
      generate_summary now (some activities) (some template) (some (some result)) =
        some result) := by
  constructor
  · intro h
    simp [generate_summary, h]
  · intro h
    simp [generate_summary, h]

/-- Witness for C9: a reply object without the key gets exactly the
timestamp field appended; one with the key comes back unchanged. -/
theorem generate_summary_datetime_injection_witness :
    generate_summary "2024-01-20 09:00:00" (some "acts") (some "tmpl")
        (some (some [("summary", .jstr "did things")])) =
      some [("summary", .jstr "did things"),
        ("datetime_summary", .jstr "2024-01-20 09:00:00")] ∧
    generate_summary "2024-01-20 09:00:00" (some "acts") (some "tmpl")
        (some (some [("summary", .jstr "did things"),
          ("datetime_summary", .jstr "earlier")])) =
      some [("summary", .jstr "did things"),
        ("datetime_summary", .jstr "earlier")] :=
  ⟨(generate_summary_datetime_injection "2024-01-20 09:00:00" "acts" "tmpl"
      [("summary", .jstr "did things")]).1 (by decide),
    (generate_summary_datetime_injection "2024-01-20 09:00:00" "acts" "tmpl"
      [("summary", .jstr "did things"), ("datetime_summary", .jstr "earlier")]).2
      (by decide)⟩

/-! ## Configuration (`src/utils/config.py`) and the service pipelines -/

/-- The configuration state read from the environment by `Config.__init__`
(config.py lines 14–48): each `os.getenv` result (`none` = variable
unset), plus the defaulted window start. -/
structure Config where
  path_project_resources : Option String
  target_file_id : Option String
  application_id : Option String
  client_secret : Option String
  refresh_token : Option String
  openai_api_key : Option String
  toggl_api_token : Option String
  time_window_start : String
deriving DecidableEq

/-- Python falsiness of an optional environment value: unset (`None`) or
the empty string — the `if not value` test of config.py line 65. -/
def falsy : Option String → Bool
  | none => true
  | some s => s == ""

/-- The `required` dict of `Config.validate_left_off_config`
(config.py lines 57–63), in its literal order. -/
def leftOffRequired (c : Config) : List (String × Option String) :=
  [("TARGET_FILE_ID", c.target_file_id),
   ("APPLICATION_ID", c.application_id),
   ("CLIENT_SECRET", c.client_secret),
   ("REFRESH_TOKEN", c.refresh_token),
   ("KEY_OPENAI", c.openai_api_key)]

/-- The `required` dict of `Config.validate_toggl_config`
(config.py lines 90–92). -/
def togglRequired (c : Config) : List (String × Option String) :=
  [("TOGGL_API_TOKEN", c.toggl_api_token)]

/-- The `missing` comprehension of config.py line 65: every required key
whose value is falsy. -/
def missingOf (required : List (String × Option String)) : List String :=
  (required.filter fun kv => falsy kv.2).map Prod.fst

/-- Python `', '.join(l)`. -/
def joinComma : List String → String
  | [] => ""
  | [a] => a
  | a :: b :: rest => a ++ ", " ++ joinComma (b :: rest)

/-- `Config.validate_left_off_config` (config.py lines 50–69): `some`
error message listing every missing key when any required value is
falsy, `none` otherwise. -/
def validate_left_off_config (c : Config) : Option String :=
  if missingOf (leftOffRequired c) = [] then none
  else some ("Missing required environment variables: " ++
    joinComma (missingOf (leftOffRequired c)))

/-- `Config.validate_toggl_config` (config.py lines 83–98). -/
def validate_toggl_config (c : Config) : Option String :=
  if missingOf (togglRequired c) = [] then none
  else some ("Missing required environment variables: " ++
    joinComma (missingOf (togglRequired c)))

/-- The network calls a service pipeline can issue. -/
inductive NetCall where
  | authToken
  | download
  | openaiChat
  | togglWorkspaces
  | togglProjects
  | togglEntries
deriving DecidableEq

/-- Outcomes of the effectful steps of `run_left_off_service`, passed in
explicitly: token call, file download, docx load, extraction, the
summarizer's two file reads and API call, and the JSON save. -/
structure LeftOffEnv where
  tokenOk : Bool
  downloadOk : Bool
  loadOk : Bool
  extractOk : Bool
  now : String
  activities : Option String
  template : Option String
  apiResult : Option (Option JObj)
  saveOk : Bool

/-- `run_left_off_service` (main.py lines 37–126), returning the exit
code and the list of network calls issued, in order.  `Config()` raising
on an unset `PATH_PROJECT_RESOURCES` and `validate_left_off_config`
raising are both caught by the `except ValueError` handler and yield
exit code 1 before any network call.  The OpenAI call happens only when
both summarizer input files were read. -/
def run_left_off_service (c : Config) (env : LeftOffEnv) : Nat × List NetCall :=
  if falsy c.path_project_resources then (1, [])
  else if missingOf (leftOffRequired c) ≠ [] then (1, [])
  else if ¬env.tokenOk then (1, [.authToken])
  else if ¬env.downloadOk then (1, [.authToken, .download])
  else if ¬env.loadOk then (1, [.authToken, .download])
  else if ¬env.extractOk then (1, [.authToken, .download])
  else
    let chatTrace :=
      if env.activities.isSome ∧ env.template.isSome then [NetCall.openaiChat] else []
    match generate_summary env.now env.activities env.template env.apiResult with
    | none => (1, [.authToken, .download] ++ chatTrace)
    | some _ =>
      if env.saveOk then (0, [.authToken, .download] ++ chatTrace)
      else (1, [.authToken, .download] ++ chatTrace)

/-- Outcomes of the effectful steps of `run_toggl_service`:
`get_workspaces` (`none` = failure; the code also treats an empty list
as failure via `if not workspaces`), `get_projects`, `get_time_entries`
(both checked against `None` only) and the CSV write. -/
structure TogglEnv where
  workspaces : Option (List Int)
  projectsOk : Bool
  entriesOk : Bool
  csvOk : Bool

/-- `run_toggl_service` (main.py lines 129–218), returning the exit code
and the network calls issued, in order. -/
def run_toggl_service (c : Config) (env : TogglEnv) : Nat × List NetCall :=
  if falsy c.path_project_resources then (1, [])
  else if missingOf (togglRequired c) ≠ [] then (1, [])
  else
    match env.workspaces with
    | none => (1, [.togglWorkspaces])
    | some ws =>
      if ws = [] then (1, [.togglWorkspaces])
      else if ¬env.projectsOk then (1, [.togglWorkspaces, .togglProjects])
      else if ¬env.entriesOk then (1, [.togglWorkspaces, .togglProjects, .togglEntries])
      else if ¬env.csvOk then (1, [.togglWorkspaces, .togglProjects, .togglEntries])
      else (0, [.togglWorkspaces, .togglProjects, .togglEntries])

/-- Every member of a list occurs inside its comma join. -/
theorem mem_joinComma_infix {k : String} :
    ∀ {l : List String}, k ∈ l → ∃ p q, joinComma l = p ++ k ++ q := by
  intro l
  induction l with
  | nil => intro h; simp at h
  | cons a rest ih =>
    intro hk
    rcases List.mem_cons.mp hk with rfl | hk'
    · cases rest with
      | nil => exact ⟨"", "", by simp [joinComma]⟩
      | cons b rest' =>
        refine ⟨"", ", " ++ joinComma (b :: rest'), ?_⟩
        simp [joinComma, String.append_assoc]
    · cases rest with
      | nil => simp at hk'
      | cons b rest' =>
        obtain ⟨p, q, hpq⟩ := ih hk'
        refine ⟨a ++ ", " ++ p, q, ?_⟩
        simp [joinComma, hpq, String.append_assoc]

/-- A required key with a falsy value is in the missing list. -/
theorem mem_missingOf {required : List (String × Option String)}
    {k : String} {v : Option String} (hmem : (k, v) ∈ required)
    (hv : falsy v = true) : k ∈ missingOf required := by
  unfold missingOf
  exact List.mem_map.mpr ⟨(k, v), List.mem_filter.mpr ⟨hmem, hv⟩, rfl⟩

/-- C7: for every configuration state, each service's validation raises
exactly when some required value is missing or empty, the raised message
enumerates every missing key (each missing key's name occurs in the
message), and on such a state the service pipeline exits with code 1
having made no network call. -/
theorem config_validation_enumerates (c : Config)
    (envL : LeftOffEnv) (envT : TogglEnv) :
    ((validate_left_off_config c = none ↔ missingOf (leftOffRequired c) = []) ∧
      (missingOf (leftOffRequired c) ≠ [] →
        validate_left_off_config c =
          some ("Missing required environment variables: " ++
            joinComma (missingOf (leftOffRequired c))) ∧
        (∀ k v, (k, v) ∈ leftOffRequired c → falsy v = true →
          ∃ p q, ("Missing required environment variables: " ++
            joinComma (missingOf (leftOffRequired c))) = p ++ k ++ q) ∧
        run_left_off_service c envL = (1, []))) ∧
    ((validate_toggl_config c = none ↔ missingOf (togglRequired c) = []) ∧
      (missingOf (togglRequired c) ≠ [] →
        validate_toggl_config c =
          some ("Missing required environment variables: " ++
            joinComma (missingOf (togglRequired c))) ∧
        (∀ k v, (k, v) ∈ togglRequired c → falsy v = true →
          ∃ p q, ("Missing required environment variables: " ++
            joinComma (missingOf (togglRequired c))) = p ++ k ++ q) ∧
        run_toggl_service c envT = (1, []))) := by
  constructor
  · constructor
    · constructor
      · intro hnone
        by_contra hne
        simp [validate_left_off_config, hne] at hnone
      · intro hnil
        simp [validate_left_off_config, hnil]
    · intro hne
      refine ⟨by simp [validate_left_off_config, hne], ?_, ?_⟩
      · intro k v hmem hv
        obtain ⟨p, q, hpq⟩ := mem_joinComma_infix (mem_missingOf hmem hv)
        exact ⟨"Missing required environment variables: " ++ p, q,
          by rw [hpq]; simp [String.append_assoc]⟩
      · by_cases hpath : falsy c.path_project_resources
        · simp [run_left_off_service, hpath]
        · simp [run_left_off_service, hpath, hne]
  · constructor
    · constructor
      · intro hnone
        by_contra hne
        simp [validate_toggl_config, hne] at hnone
      · intro hnil
        simp [validate_toggl_config, hnil]
    · intro hne
      refine ⟨by simp [validate_toggl_config, hne], ?_, ?_⟩
      · intro k v hmem hv
        obtain ⟨p, q, hpq⟩ := mem_joinComma_infix (mem_missingOf hmem hv)
        exact ⟨"Missing required environment variables: " ++ p, q,
          by rw [hpq]; simp [String.append_assoc]⟩
      · by_cases hpath : falsy c.path_project_resources
        · simp [run_toggl_service, hpath]
        · simp [run_toggl_service, hpath, hne]

/-- A configuration with two left-off keys missing (one unset, one
empty) and the Toggl token unset. -/
def demoConfig : Config :=
  ⟨some "/data", none, some "", some "sec", some "ref", some "key", none, "23:00"⟩

/-- Witness for C7: on `demoConfig`, both validations produce a message
listing every missing key (two of them for LEFT-OFF), and both pipelines
exit 1 without a single network call. -/
theorem config_validation_enumerates_witness :
    validate_left_off_config demoConfig =
      some "Missing required environment variables: TARGET_FILE_ID, APPLICATION_ID" ∧
    run_left_off_service demoConfig
      ⟨true, true, true, true, "now", some "a", some "t", some (some []), true⟩ = (1, []) ∧
    validate_toggl_config demoConfig =
      some "Missing required environment variables: TOGGL_API_TOKEN" ∧
    run_toggl_service demoConfig ⟨some [7], true, true, true⟩ = (1, []) := by
  have hL := (config_validation_enumerates demoConfig
    ⟨true, true, true, true, "now", some "a", some "t", some (some []), true⟩
    ⟨some [7], true, true, true⟩).1.2 (by decide)
  have hT := (config_validation_enumerates demoConfig
    ⟨true, true, true, true, "now", some "a", some "t", some (some []), true⟩
    ⟨some [7], true, true, true⟩).2.2 (by decide)
  exact ⟨hL.1, hL.2.2, hT.1, hT.2.2⟩

end PW3
